import Mathlib

/-!
Shallow embedding of the room-synchronization core of the repository:
the language normalizer (`src/02-collab-app/src/app_backend/models.py`),
the rooms store (`src/02-interview-app/src/app_backend/store.py`), and the
websocket protocol handler (`src/02-collab-app/src/app_backend/main.py`).

Modelling conventions:
  * Python `dict` is an association list in insertion order; assigning to an
    existing key replaces the value in place, assigning to a fresh key appends.
  * `time.time()` is an explicit `now : Nat` parameter of each operation.
  * `uuid.uuid4().hex[:8]` is an explicit `gen_id : String` parameter
    (the value the generator happened to produce).
  * Methods that mutate `self._rooms` return the new map alongside their
    Python return value.
-/

namespace CollabApp

/-- The supported language identifiers, the keys (and values) of the Python
dict `SUPPORTED_LANGUAGES` in `models.py` (each key maps to itself). -/
def SUPPORTED_LANGUAGES : List (String × String) :=
  [("python", "python"), ("javascript", "javascript"),
   ("typescript", "typescript"), ("sql", "sql"), ("java", "java"),
   ("c", "c"), ("cpp", "cpp")]

/-- The display-alias dict `mapping` local to `normalize_language`. -/
def aliasMapping : List (String × String) :=
  [("c++", "cpp"), ("js", "javascript"), ("ts", "typescript")]

/-- Python dict lookup `m[k]` / `m.get(k)` on a string-keyed dict. -/
def dictGet (m : List (String × String)) (k : String) : Option String :=
  (m.find? (fun p => p.1 == k)).map Prod.snd

/-- Python `lang.lower()`, modelled as per-character lowercasing (ASCII case
folding; all language identifiers and aliases concerned are ASCII). -/
def pyLower (s : String) : String := ⟨s.data.map Char.toLower⟩

/-- `normalize_language` from `models.py`.

```
if not lang: return "python"
lower = lang.lower()
if lower in SUPPORTED_LANGUAGES: return SUPPORTED_LANGUAGES[lower]
mapping = {"c++": "cpp", "js": "javascript", "ts": "typescript"}
if lower in mapping: return SUPPORTED_LANGUAGES[mapping[lower]]
return "python"
```

`not lang` is true exactly for `None` and `""`.  On the alias branch the
inner lookup `SUPPORTED_LANGUAGES[mapping[lower]]` always succeeds (every
alias value is a key of `SUPPORTED_LANGUAGES`); the `getD "python"` default
is dead code kept only to make the function total term-by-term. -/
def normalize_language (lang : Option String) : String :=
  match lang with
  | none => "python"
  | some l =>
    if l = "" then "python"
    else
      let lower := pyLower l
      match dictGet SUPPORTED_LANGUAGES lower with
      | some v => v
      | none =>
        match dictGet aliasMapping lower with
        | some a => (dictGet SUPPORTED_LANGUAGES a).getD "python"
        | none => "python"

/-- The seven canonical language identifiers (keys of `SUPPORTED_LANGUAGES`). -/
def canonKeys : List String :=
  ["python", "javascript", "typescript", "sql", "java", "c", "cpp"]

/-- The three alias keys. -/
def aliasKeys : List String := ["c++", "js", "ts"]

lemma dictGet_supported (k : String) :
    dictGet SUPPORTED_LANGUAGES k = if k ∈ canonKeys then some k else none := by
  by_cases h : k ∈ canonKeys
  · rw [if_pos h]
    fin_cases h <;> rfl
  · rw [if_neg h]
    simp only [canonKeys, List.mem_cons, List.not_mem_nil, or_false] at h
    push_neg at h
    obtain ⟨h1, h2, h3, h4, h5, h6, h7⟩ := h
    simp [dictGet, SUPPORTED_LANGUAGES, List.find?,
      beq_eq_false_iff_ne.mpr (Ne.symm h1), beq_eq_false_iff_ne.mpr (Ne.symm h2),
      beq_eq_false_iff_ne.mpr (Ne.symm h3), beq_eq_false_iff_ne.mpr (Ne.symm h4),
      beq_eq_false_iff_ne.mpr (Ne.symm h5), beq_eq_false_iff_ne.mpr (Ne.symm h6),
      beq_eq_false_iff_ne.mpr (Ne.symm h7)]

lemma dictGet_alias (k : String) :
    dictGet aliasMapping k =
      if k = "c++" then some "cpp"
      else if k = "js" then some "javascript"
      else if k = "ts" then some "typescript"
      else none := by
  by_cases h1 : k = "c++"
  · subst h1; rfl
  by_cases h2 : k = "js"
  · subst h2; rfl
  by_cases h3 : k = "ts"
  · subst h3; rfl
  simp [dictGet, aliasMapping, List.find?, h1, h2, h3,
    beq_eq_false_iff_ne.mpr (Ne.symm h1), beq_eq_false_iff_ne.mpr (Ne.symm h2),
    beq_eq_false_iff_ne.mpr (Ne.symm h3)]

/-- Full characterization of `normalize_language` on a present string. -/
lemma normalize_language_some (s : String) :
    normalize_language (some s) =
      if s = "" then "python"
      else if pyLower s ∈ canonKeys then pyLower s
      else if pyLower s = "c++" then "cpp"
      else if pyLower s = "js" then "javascript"
      else if pyLower s = "ts" then "typescript"
      else "python" := by
  by_cases hs : s = ""
  · simp [normalize_language, hs]
  rw [normalize_language]
  simp only [hs, if_false, dictGet_supported, dictGet_alias]
  by_cases hc : pyLower s ∈ canonKeys
  · simp [hc]
  · simp only [hc, if_neg, if_false]
    by_cases h1 : pyLower s = "c++"
    · simp [h1]; decide
    by_cases h2 : pyLower s = "js"
    · simp [h1, h2]; decide
    by_cases h3 : pyLower s = "ts"
    · simp [h1, h2, h3]; decide
    simp [h1, h2, h3]

/-- Every output of `normalize_language` is one of the seven canonical
identifiers. -/
lemma normalize_language_mem (x : Option String) :
    normalize_language x ∈ canonKeys := by
  match x with
  | none => decide
  | some s =>
    rw [normalize_language_some]
    by_cases hs : s = ""
    · simp [hs]; decide
    simp only [hs, if_false]
    by_cases hc : pyLower s ∈ canonKeys
    · simp [hc]
    simp only [hc, if_false]
    by_cases h1 : pyLower s = "c++"
    · simp [h1]; decide
    by_cases h2 : pyLower s = "js"
    · simp [h1, h2]; decide
    by_cases h3 : pyLower s = "ts"
    · simp [h1, h2, h3]; decide
    simp [h1, h2, h3]; decide

/-- `RoomState` from `models.py`: room identifier, shared code, language tag,
and the `last_updated` Unix timestamp (modelled as `Nat`; the claims only use
its ordering). -/
structure RoomState where
  room_id : String
  code : String
  language : String
  last_updated : Nat
deriving DecidableEq, Repr

/-- The store's internal dict `self._rooms`, in insertion order. -/
abbrev Rooms := List (String × RoomState)

/-- Python `self._rooms.get(room_id)`. -/
def Rooms.get? (rs : Rooms) (k : String) : Option RoomState :=
  (rs.find? (fun p => p.1 == k)).map Prod.snd

/-- Python `self._rooms[k] = v`: replace in place when the key exists,
append otherwise (dict insertion-order semantics). -/
def Rooms.insert (rs : Rooms) (k : String) (v : RoomState) : Rooms :=
  if rs.any (fun p => p.1 == k) then
    rs.map (fun p => if p.1 == k then (k, v) else p)
  else
    rs ++ [(k, v)]

/-- Python truthiness fallback `code or ""` used in `upsert_room`'s create
branch: `None` and `""` are falsy. -/
def pyOrEmpty (c : Option String) : String :=
  match c with
  | none => ""
  | some s => if s = "" then "" else s

/-- `RoomsStore.create_room` from `store.py`.  `gen_id` is the value
`self.generate_room_id()` (i.e. `uuid.uuid4().hex[:8]`) produced, `now` the
value of `time.time()`.  Note the source stores the new room under `gen_id`
unconditionally, with no collision check. -/
def create_room (rs : Rooms) (gen_id : String) (code : String)
    (language : Option String) (now : Nat) : RoomState × Rooms :=
  let room : RoomState :=
    { room_id := gen_id, code := code,
      language := normalize_language language, last_updated := now }
  (room, Rooms.insert rs gen_id room)

/-- `RoomsStore.get_room`. -/
def get_room (rs : Rooms) (room_id : String) : Option RoomState :=
  Rooms.get? rs room_id

/-- The shared tail of `upsert_room` / `update_room` on an existing room:
`data = existing.model_copy()`, then overwrite the supplied fields, then
`data.last_updated = time.time()`. -/
def applyFields (existing : RoomState) (code language : Option String)
    (now : Nat) : RoomState :=
  let d1 := match code with
    | none => existing
    | some c => { existing with code := c }
  let d2 := match language with
    | none => d1
    | some l => { d1 with language := normalize_language (some l) }
  { d2 with last_updated := now }

/-- `RoomsStore.upsert_room`: create with defaults when the id is unknown,
otherwise partial update.  Returns the Python return value together with the
new `self._rooms`. -/
def upsert_room (rs : Rooms) (room_id : String) (code language : Option String)
    (now : Nat) : RoomState × Rooms :=
  match Rooms.get? rs room_id with
  | none =>
    let existing : RoomState :=
      { room_id := room_id, code := pyOrEmpty code,
        language := normalize_language language, last_updated := now }
    (existing, Rooms.insert rs room_id existing)
  | some existing =>
    let data := applyFields existing code language now
    (data, Rooms.insert rs room_id data)

/-- `RoomsStore.update_room`: like the update branch of `upsert_room`, but
returns `None` (first component) and leaves `self._rooms` untouched when the
id is unknown. -/
def update_room (rs : Rooms) (room_id : String) (code language : Option String)
    (now : Nat) : Option RoomState × Rooms :=
  match Rooms.get? rs room_id with
  | none => (none, rs)
  | some existing =>
    let data := applyFields existing code language now
    (some data, Rooms.insert rs room_id data)

/-- `RoomsStore.list_rooms`: `dict(self._rooms)`, a key-level (shallow) copy.
In this pure value model the copy is just the value itself; the aliasing of
the `RoomState` objects it shares with the store is modelled separately in
the heap model below. -/
def list_rooms (rs : Rooms) : Rooms := rs

/-! ### Websocket protocol handler (`room_websocket` in `main.py`)

One iteration of the dispatch loop, handling a single inbound JSON message on
a connection.  Connections are identified by `Nat` tokens; `sender` is the
connection the message arrived on, and `subscribers` the set of connections
currently holding an open channel to the same `room_id` (the source does not
track this set — which is exactly what claim C1 is about).  The result is the
new store map together with the list of `(connection, payload)` sends the
handler performs. -/

/-- An inbound channel message after JSON decoding: `data.get("action")`
plus the optional `code` / `language` fields. -/
inductive WsMessage where
  | get
  | update (code language : Option String)
  | other (action : String)
deriving DecidableEq, Repr

/-- An outbound payload: a room snapshot (`room.model_dump()`) or an error
object. -/
inductive WsOut where
  | snapshot (room : RoomState)
  | error (action : String)
deriving DecidableEq, Repr

/-- One iteration of the `while True` dispatch loop of `room_websocket`. -/
def handle_message (rs : Rooms) (room_id : String) (sender : Nat)
    (subscribers : List Nat) (msg : WsMessage) (now : Nat) :
    Rooms × List (Nat × WsOut) :=
  match msg with
  | .get =>
    match get_room rs room_id with
    | some room => (rs, [(sender, .snapshot room)])
    | none =>
      let (room, rs2) := upsert_room rs room_id none none now
      (rs2, [(sender, .snapshot room)])
  | .update code language =>
    -- `room = store.upsert_room(room_id, code=code, language=language)`
    -- `await websocket.send_json(room.model_dump())` — sent to the sender's
    -- own socket only; `subscribers` is never consulted.
    let (room, rs2) := upsert_room rs room_id code language now
    (rs2, [(sender, .snapshot room)])
  | .other action => (rs, [(sender, .error action)])

/-! ### Heap model of object aliasing (for `list_rooms`)

The pure model above treats `RoomState` as a value, which hides Python's
object identity.  `list_rooms` returns `dict(self._rooms)` — a new dict whose
values are the *same* `RoomState` objects the store holds.  To settle claim
C8 we model the heap explicitly: a `RoomState` object is a handle (index)
into a list of cells, and the store's dict maps ids to handles. -/

/-- The Python heap restricted to `RoomState` objects: handle = index. -/
structure PyHeap where
  cells : List RoomState
deriving DecidableEq, Repr

/-- Dereference a handle. -/
def PyHeap.read (h : PyHeap) (i : Nat) : Option RoomState :=
  h.cells.get? i

/-- Overwrite the object behind a handle (in-place attribute mutation). -/
def PyHeap.write (h : PyHeap) (i : Nat) (r : RoomState) : PyHeap :=
  ⟨h.cells.set i r⟩

/-- The store's internal dict in the heap model: id → object handle. -/
structure StoreObj where
  rooms : List (String × Nat)
deriving DecidableEq, Repr

/-- Heap-model `list_rooms`: `dict(self._rooms)` copies the key → reference
pairs into a fresh dict; the handles are shared with the store. -/
def list_rooms_heap (s : StoreObj) : List (String × Nat) :=
  s.rooms

/-- Heap-model `get_room`: look up the handle, dereference it to observe the
room's current field values. -/
def get_room_heap (h : PyHeap) (s : StoreObj) (room_id : String) :
    Option RoomState :=
  match (s.rooms.find? (fun p => p.1 == room_id)).map Prod.snd with
  | none => none
  | some handle => h.read handle

/-- A caller mutating a `RoomState` object it obtained from a returned
mapping: `room.code = c` on the object behind `handle`. -/
def set_room_code (h : PyHeap) (handle : Nat) (c : String) : PyHeap :=
  match h.read handle with
  | none => h
  | some r => h.write handle { r with code := c }

/-! ### Basic facts about the dict model -/

lemma find?_map_insert (rs : Rooms) (k : String) (v : RoomState)
    (h : rs.any (fun p => p.1 == k) = true) :
    (rs.map (fun p => if p.1 == k then (k, v) else p)).find?
      (fun p => p.1 == k) = some (k, v) := by
  induction rs with
  | nil => simp at h
  | cons hd tl ih =>
    by_cases hk : hd.1 = k
    · have hbeq : (hd.1 == k) = true := beq_iff_eq.mpr hk
      rw [List.map_cons, if_pos hbeq, List.find?_cons_of_pos _ (by simp)]
    · have hbeq : (hd.1 == k) = false := beq_eq_false_iff_ne.mpr hk
      have htl : tl.any (fun p => p.1 == k) = true := by
        simpa [List.any_cons, hbeq] using h
      simp only [List.map_cons, hbeq, Bool.false_eq_true, if_false]
      rw [List.find?_cons_of_neg _ (by simp [hbeq])]
      exact ih htl

lemma find?_append_single (rs : Rooms) (k : String) (v : RoomState)
    (h : rs.any (fun p => p.1 == k) = false) :
    (rs ++ [(k, v)]).find? (fun p => p.1 == k) = some (k, v) := by
  induction rs with
  | nil => simp
  | cons hd tl ih =>
    simp only [List.any_cons, Bool.or_eq_false_iff] at h
    rw [List.cons_append, List.find?_cons_of_neg _ (by simp [h.1])]
    exact ih h.2

/-- Looking up the key just assigned yields the value just assigned. -/
lemma Rooms.get?_insert_self (rs : Rooms) (k : String) (v : RoomState) :
    Rooms.get? (Rooms.insert rs k v) k = some v := by
  unfold Rooms.insert Rooms.get?
  by_cases h : rs.any (fun p => p.1 == k)
  · rw [if_pos h, find?_map_insert rs k v h]; rfl
  · rw [if_neg h, find?_append_single rs k v (by rwa [Bool.not_eq_true] at h)]
    rfl

/-- Every entry of the dict after an assignment is the assigned pair or an
entry that was already there. -/
lemma Rooms.mem_insert {rs : Rooms} {k : String} {v : RoomState}
    {p : String × RoomState} (hp : p ∈ Rooms.insert rs k v) :
    p = (k, v) ∨ p ∈ rs := by
  unfold Rooms.insert at hp
  split at hp
  · obtain ⟨q, hq, hmap⟩ := List.mem_map.mp hp
    by_cases hqk : q.1 = k
    · left
      rw [← hmap, if_pos (beq_iff_eq.mpr hqk)]
    · right
      rw [← hmap]
      simpa [beq_eq_false_iff_ne.mpr hqk] using hq
  · rcases List.mem_append.mp hp with h | h
    · right; exact h
    · left; simpa using h

/-- A successful lookup returns an entry of the dict, under its key. -/
lemma Rooms.get?_mem {rs : Rooms} {k : String} {v : RoomState}
    (h : Rooms.get? rs k = some v) : (k, v) ∈ rs := by
  unfold Rooms.get? at h
  cases hf : rs.find? (fun p => p.1 == k) with
  | none => rw [hf] at h; simp at h
  | some q =>
    rw [hf] at h
    obtain ⟨q1, q2⟩ := q
    have hpred := List.find?_some hf
    have hmem := List.mem_of_find?_eq_some hf
    simp only [beq_iff_eq] at hpred
    subst hpred
    exact Option.some.inj h ▸ hmem

/-- The store invariant of claim C9: every stored snapshot carries the key it
is stored under as its `room_id`. -/
def RoomsInv (rs : Rooms) : Prop := ∀ p ∈ rs, (p.2).room_id = p.1

lemma roomsInv_insert {rs : Rooms} {k : String} {v : RoomState}
    (hinv : RoomsInv rs) (hv : v.room_id = k) :
    RoomsInv (Rooms.insert rs k v) := by
  intro p hp
  rcases Rooms.mem_insert hp with rfl | hp'
  · exact hv
  · exact hinv p hp'

/-- Under the invariant, a found room's `room_id` is the lookup key. -/
lemma roomsInv_get? {rs : Rooms} {k : String} {v : RoomState}
    (hinv : RoomsInv rs) (h : Rooms.get? rs k = some v) : v.room_id = k :=
  hinv (k, v) (Rooms.get?_mem h)

/-! ## Claim theorems -/

/-- C5: `normalize_language` is total and never fails: it returns the default
language `"python"` for empty/missing input and for any string whose
lowercase form matches neither a canonical identifier nor an alias; matching
is case-insensitive against the seven canonical identifiers and the display
aliases `"c++" → "cpp"`, `"js" → "javascript"`, `"ts" → "typescript"`; every
output is one of the seven supported languages. -/
theorem c5_normalize_contract :
    normalize_language none = "python"
    ∧ normalize_language (some "") = "python"
    ∧ (∀ s : String, normalize_language (some s) ∈ canonKeys)
    ∧ (∀ s : String, s ≠ "" → pyLower s ∈ canonKeys →
        normalize_language (some s) = pyLower s)
    ∧ (∀ s : String, pyLower s = "c++" → normalize_language (some s) = "cpp")
    ∧ (∀ s : String, pyLower s = "js" →
        normalize_language (some s) = "javascript")
    ∧ (∀ s : String, pyLower s = "ts" →
        normalize_language (some s) = "typescript")
    ∧ (∀ s : String, pyLower s ∉ canonKeys → pyLower s ∉ aliasKeys →
        normalize_language (some s) = "python") := by
  refine ⟨rfl, rfl, fun s => normalize_language_mem (some s), ?_, ?_, ?_, ?_, ?_⟩
  · intro s hne hmem
    rw [normalize_language_some, if_neg hne, if_pos hmem]
  · intro s hlow
    have hne : s ≠ "" := by
      intro hs; rw [hs] at hlow; exact absurd hlow (by decide)
    have hnc : pyLower s ∉ canonKeys := by rw [hlow]; decide
    rw [normalize_language_some, if_neg hne, if_neg hnc, if_pos hlow]
  · intro s hlow
    have hne : s ≠ "" := by
      intro hs; rw [hs] at hlow; exact absurd hlow (by decide)
    have hnc : pyLower s ∉ canonKeys := by rw [hlow]; decide
    have h1 : pyLower s ≠ "c++" := by rw [hlow]; decide
    rw [normalize_language_some, if_neg hne, if_neg hnc, if_neg h1,
      if_pos hlow]
  · intro s hlow
    have hne : s ≠ "" := by
      intro hs; rw [hs] at hlow; exact absurd hlow (by decide)
    have hnc : pyLower s ∉ canonKeys := by rw [hlow]; decide
    have h1 : pyLower s ≠ "c++" := by rw [hlow]; decide
    have h2 : pyLower s ≠ "js" := by rw [hlow]; decide
    rw [normalize_language_some, if_neg hne, if_neg hnc, if_neg h1, if_neg h2,
      if_pos hlow]
  · intro s hnc hna
    by_cases hne : s = ""
    · rw [hne]; rfl
    have h1 : pyLower s ≠ "c++" := fun h => hna (by rw [h]; decide)
    have h2 : pyLower s ≠ "js" := fun h => hna (by rw [h]; decide)
    have h3 : pyLower s ≠ "ts" := fun h => hna (by rw [h]; decide)
    rw [normalize_language_some, if_neg hne, if_neg hnc, if_neg h1, if_neg h2,
      if_neg h3]

/-- Witness for C5 at concrete inputs: `"Python"` matches case-insensitively,
`"C++"`, `"js"`, `"TS"` hit the aliases, `"klingon"` matches nothing and
falls back to the default. -/
theorem c5_normalize_contract_witness :
    normalize_language (some "Python") = pyLower "Python"
    ∧ normalize_language (some "C++") = "cpp"
    ∧ normalize_language (some "js") = "javascript"
    ∧ normalize_language (some "TS") = "typescript"
    ∧ normalize_language (some "klingon") = "python" :=
  ⟨c5_normalize_contract.2.2.2.1 "Python" (by decide) (by decide),
   c5_normalize_contract.2.2.2.2.1 "C++" (by decide),
   c5_normalize_contract.2.2.2.2.2.1 "js" (by decide),
   c5_normalize_contract.2.2.2.2.2.2.1 "TS" (by decide),
   c5_normalize_contract.2.2.2.2.2.2.2 "klingon" (by decide) (by decide)⟩

/-- C6: normalization is idempotent — every output of `normalize_language`
is a fixed point, so `normalize(normalize(x)) = normalize(x)` for all `x`. -/
theorem c6_normalize_idempotent (x : Option String) :
    normalize_language (some (normalize_language x)) = normalize_language x := by
  have h := normalize_language_mem x
  simp only [canonKeys, List.mem_cons, List.not_mem_nil, or_false] at h
  rcases h with h | h | h | h | h | h | h <;> rw [h] <;> decide

/-- Partial update never touches `room_id`. -/
lemma applyFields_room_id (e : RoomState) (c l : Option String) (now : Nat) :
    (applyFields e c l now).room_id = e.room_id := by
  cases c <;> cases l <;> rfl

/-- Partial update always sets `last_updated` to the supplied clock value. -/
lemma applyFields_last_updated (e : RoomState) (c l : Option String)
    (now : Nat) : (applyFields e c l now).last_updated = now := by
  cases c <;> cases l <;> rfl

/-- C3: for an identifier absent from the registry, `update_room` returns the
not-found signal (`none`) and leaves the registry unchanged, while
`upsert_room` with the same identifier creates a room under it whose code is
the supplied text (empty by default) and whose language is the normalized
supplied language (the default `"python"` when missing), stores it, and
returns it. -/
theorem c3_update_notfound_upsert_creates (rs : Rooms) (id : String)
    (c l : Option String) (now : Nat) (habs : Rooms.get? rs id = none) :
    update_room rs id c l now = (none, rs)
    ∧ (upsert_room rs id c l now).1 =
        { room_id := id, code := pyOrEmpty c,
          language := normalize_language l, last_updated := now }
    ∧ (upsert_room rs id c l now).2 =
        Rooms.insert rs id (upsert_room rs id c l now).1
    ∧ Rooms.get? (upsert_room rs id c l now).2 id =
        some (upsert_room rs id c l now).1 := by
  unfold update_room upsert_room
  rw [habs]
  exact ⟨rfl, rfl, rfl, Rooms.get?_insert_self rs id _⟩

/-- Witness for C3 at a concrete unknown identifier. -/
theorem c3_update_notfound_upsert_creates_witness :
    update_room [] "r1" (some "hi") (some "js") 7 = (none, [])
    ∧ (upsert_room [] "r1" (some "hi") (some "js") 7).1 =
        { room_id := "r1", code := pyOrEmpty (some "hi"),
          language := normalize_language (some "js"), last_updated := 7 }
    ∧ (upsert_room [] "r1" (some "hi") (some "js") 7).2 =
        Rooms.insert [] "r1" (upsert_room [] "r1" (some "hi") (some "js") 7).1
    ∧ Rooms.get? (upsert_room [] "r1" (some "hi") (some "js") 7).2 "r1" =
        some (upsert_room [] "r1" (some "hi") (some "js") 7).1 :=
  c3_update_notfound_upsert_creates [] "r1" (some "hi") (some "js") 7 (by rfl)

/-- C4: on an existing room, `update_room` (and the update branch of
`upsert_room`) applies only the fields supplied: updating with only code
supplied leaves the language (and identifier) unchanged, updating with only
language supplied leaves the code unchanged, and a supplied language is
stored normalized. -/
theorem c4_partial_update_preserves_untouched (rs : Rooms) (id : String)
    (now : Nat) (r : RoomState) (hget : Rooms.get? rs id = some r) :
    (∀ t : String, (update_room rs id (some t) none now).1 =
        some { r with code := t, last_updated := now })
    ∧ (∀ l : String, (update_room rs id none (some l) now).1 =
        some { r with language := normalize_language (some l),
                      last_updated := now })
    ∧ (∀ t : String, (upsert_room rs id (some t) none now).1 =
        { r with code := t, last_updated := now })
    ∧ (∀ l : String, (upsert_room rs id none (some l) now).1 =
        { r with language := normalize_language (some l),
                 last_updated := now }) := by
  unfold update_room upsert_room
  rw [hget]
  exact ⟨fun t => rfl, fun l => rfl, fun t => rfl, fun l => rfl⟩

/-- Witness for C4: on the room `{code := "a", language := "python"}`,
updating only the code to `"b"` keeps the language `"python"`, and updating
only the language keeps the code `"a"`. -/
theorem c4_partial_update_preserves_untouched_witness :
    (update_room [("r1", ⟨"r1", "a", "python", 1⟩)] "r1" (some "b") none 5).1 =
      some ⟨"r1", "b", "python", 5⟩
    ∧ (update_room [("r1", ⟨"r1", "a", "python", 1⟩)] "r1" none
        (some "TS") 5).1 = some ⟨"r1", "a", "typescript", 5⟩ := by
  have h := c4_partial_update_preserves_untouched
    [("r1", ⟨"r1", "a", "python", 1⟩)] "r1" 5 ⟨"r1", "a", "python", 1⟩ (by rfl)
  refine ⟨h.1 "b", ?_⟩
  rw [h.2.1 "TS"]
  decide

/-- C10: on an existing room, `update_room` / `upsert_room` with neither code
nor language supplied is not a no-op: the code and language are unchanged but
`last_updated` is refreshed to the supplied current time, and the refreshed
snapshot is both stored and returned. -/
theorem c10_empty_update_refreshes_timestamp (rs : Rooms) (id : String)
    (now : Nat) (r : RoomState) (hget : Rooms.get? rs id = some r) :
    update_room rs id none none now =
      (some { r with last_updated := now },
       Rooms.insert rs id { r with last_updated := now })
    ∧ upsert_room rs id none none now =
      ({ r with last_updated := now },
       Rooms.insert rs id { r with last_updated := now }) := by
  unfold update_room upsert_room
  rw [hget]
  exact ⟨rfl, rfl⟩

/-- Witness for C10 at a concrete room: only the timestamp changes, and the
new snapshot is stored. -/
theorem c10_empty_update_refreshes_timestamp_witness :
    update_room [("r1", ⟨"r1", "a", "sql", 1⟩)] "r1" none none 9 =
      (some ⟨"r1", "a", "sql", 9⟩, [("r1", ⟨"r1", "a", "sql", 9⟩)]) := by
  have h := c10_empty_update_refreshes_timestamp
    [("r1", ⟨"r1", "a", "sql", 1⟩)] "r1" 9 ⟨"r1", "a", "sql", 1⟩ (by rfl)
  rw [h.1]
  decide

/-- Counterexample to C2 as stated: a mutation that changes a field while the
clock reading equals the room's previous `last_updated` (as `time.time()`
may: it is wall-clock, not a strictly increasing counter) leaves
`last_modified` equal, not strictly greater.  Here the room has
`last_updated = 100`, the update changes the code from `"a"` to `"b"` at
clock reading `100`, and the resulting `last_updated` is `100`. -/
theorem c2_counterexample :
    (update_room [("r1", ⟨"r1", "a", "python", 100⟩)] "r1" (some "b")
        none 100).1 = some ⟨"r1", "b", "python", 100⟩
    ∧ ¬ (100 : Nat) > 100 := by decide

/-- C2 (amended): after every successful mutation of an existing room,
`last_modified` equals the clock reading of the mutation; hence it never
decreases provided the clock has not gone backwards since the previous write
(`r.last_updated ≤ now`), and it strictly increases whenever the clock
strictly advanced (`r.last_updated < now`) — independently of whether any
field changed. -/
theorem c2_last_modified_monotone (rs : Rooms) (id : String)
    (c l : Option String) (now : Nat) (r : RoomState)
    (hget : Rooms.get? rs id = some r) :
    (∀ r' : RoomState, (update_room rs id c l now).1 = some r' →
        r'.last_updated = now
        ∧ (r.last_updated ≤ now → r.last_updated ≤ r'.last_updated)
        ∧ (r.last_updated < now → r.last_updated < r'.last_updated))
    ∧ ((upsert_room rs id c l now).1.last_updated = now
        ∧ (r.last_updated ≤ now →
            r.last_updated ≤ (upsert_room rs id c l now).1.last_updated)
        ∧ (r.last_updated < now →
            r.last_updated < (upsert_room rs id c l now).1.last_updated)) := by
  unfold update_room upsert_room
  rw [hget]
  constructor
  · intro r' hr'
    have : r' = applyFields r c l now := by
      simpa using hr'.symm
    subst this
    rw [applyFields_last_updated]
    exact ⟨rfl, fun h => h, fun h => h⟩
  · rw [show (applyFields r c l now,
        Rooms.insert rs id (applyFields r c l now)).1 =
        applyFields r c l now from rfl, applyFields_last_updated]
    exact ⟨rfl, fun h => h, fun h => h⟩

/-- Witness for the amended C2 at a concrete room and strictly advanced
clock. -/
theorem c2_last_modified_monotone_witness :
    (update_room [("r1", ⟨"r1", "a", "python", 1⟩)] "r1" (some "b")
        none 2).1 = some ⟨"r1", "b", "python", 2⟩
    ∧ (1 : Nat) ≤ 2 ∧ (1 : Nat) < 2 := by
  have h := c2_last_modified_monotone [("r1", ⟨"r1", "a", "python", 1⟩)] "r1"
    (some "b") none 2 ⟨"r1", "a", "python", 1⟩ (by rfl)
  have h2 := h.1 ⟨"r1", "b", "python", 2⟩ (by decide)
  exact ⟨by decide, h2.2.1 (by decide), h2.2.2 (by decide)⟩

/-- C9: the store invariant — every stored snapshot's `room_id` equals the
key it is stored under — is preserved by `create_room`, `upsert_room` and
`update_room`, and the snapshot each returns carries the identifier it was
stored under. -/
theorem c9_room_id_matches_key (rs : Rooms) (hinv : RoomsInv rs)
    (id gid c0 : String) (c l : Option String) (now : Nat) :
    (RoomsInv (create_room rs gid c0 l now).2
      ∧ ((create_room rs gid c0 l now).1).room_id = gid
      ∧ Rooms.get? (create_room rs gid c0 l now).2 gid =
          some (create_room rs gid c0 l now).1)
    ∧ (RoomsInv (upsert_room rs id c l now).2
      ∧ ((upsert_room rs id c l now).1).room_id = id
      ∧ Rooms.get? (upsert_room rs id c l now).2 id =
          some (upsert_room rs id c l now).1)
    ∧ (RoomsInv (update_room rs id c l now).2
      ∧ ∀ r' : RoomState, (update_room rs id c l now).1 = some r' →
          r'.room_id = id
          ∧ Rooms.get? (update_room rs id c l now).2 id = some r') := by
  refine ⟨⟨roomsInv_insert hinv rfl, rfl, Rooms.get?_insert_self rs gid _⟩,
    ?_, ?_⟩
  · unfold upsert_room
    cases hg : Rooms.get? rs id with
    | none =>
      exact ⟨roomsInv_insert hinv rfl, rfl, Rooms.get?_insert_self rs id _⟩
    | some existing =>
      have hrid : (applyFields existing c l now).room_id = id := by
        rw [applyFields_room_id]
        exact roomsInv_get? hinv hg
      exact ⟨roomsInv_insert hinv hrid, hrid, Rooms.get?_insert_self rs id _⟩
  · unfold update_room
    cases hg : Rooms.get? rs id with
    | none => exact ⟨hinv, fun r' hr' => by simp at hr'⟩
    | some existing =>
      have hrid : (applyFields existing c l now).room_id = id := by
        rw [applyFields_room_id]
        exact roomsInv_get? hinv hg
      refine ⟨roomsInv_insert hinv hrid, fun r' hr' => ?_⟩
      have : r' = applyFields existing c l now := by simpa using hr'.symm
      subst this
      exact ⟨hrid, Rooms.get?_insert_self rs id _⟩

/-- Witness for C9 on a concrete registry satisfying the invariant. -/
theorem c9_room_id_matches_key_witness :
    ((create_room [("a1", ⟨"a1", "", "python", 0⟩)] "b2" "" none 3).1).room_id
      = "b2"
    ∧ ((upsert_room [("a1", ⟨"a1", "", "python", 0⟩)] "a1" none none
        3).1).room_id = "a1" := by
  have h := c9_room_id_matches_key [("a1", ⟨"a1", "", "python", 0⟩)]
    (by intro p hp; rw [List.mem_singleton] at hp; subst hp; rfl)
    "a1" "b2" "" none none 3
  exact ⟨h.1.2.1, h.2.1.2.1⟩

/-- C1 (code bug): on an `update` message the handler sends the resulting
snapshot only to the connection that sent the message, never to the other
subscribers of the room.  Concretely: with room `"r1"` present and
connections `1` and `2` both subscribed to `"r1"`, an update from connection
`1` produces exactly one send, addressed to connection `1`; connection `2`
receives nothing, contradicting the broadcast requirement. -/
theorem c1_update_echoes_sender_only :
    (handle_message [("r1", ⟨"r1", "", "python", 0⟩)] "r1" 1 [1, 2]
        (WsMessage.update (some "hi") none) 5).2 =
      [(1, WsOut.snapshot ⟨"r1", "hi", "python", 5⟩)]
    ∧ 2 ∉ ((handle_message [("r1", ⟨"r1", "", "python", 0⟩)] "r1" 1 [1, 2]
        (WsMessage.update (some "hi") none) 5).2.map Prod.fst) := by decide

/-- C7 (code bug): `create_room` stores the new room under the generated
identifier unconditionally, with no collision detection or retry.
Concretely: with a room already stored under `"deadbeef"`, a create call
whose generator happens to produce `"deadbeef"` again silently overwrites
the existing room (the registry still has a single entry, now holding the
new room) and returns an identifier that is not distinct from the existing
ones. -/
theorem c7_create_overwrites_on_collision :
    (create_room [("deadbeef", ⟨"deadbeef", "original", "python", 0⟩)]
        "deadbeef" "" none 10).2 =
      [("deadbeef", ⟨"deadbeef", "", "python", 10⟩)]
    ∧ ((create_room [("deadbeef", ⟨"deadbeef", "original", "python", 0⟩)]
        "deadbeef" "" none 10).1).room_id = "deadbeef"
    ∧ Rooms.get?
        (create_room [("deadbeef", ⟨"deadbeef", "original", "python", 0⟩)]
          "deadbeef" "" none 10).2 "deadbeef" ≠
        some ⟨"deadbeef", "original", "python", 0⟩ := by decide

/-- C8 (code bug): `list_rooms` returns `dict(self._rooms)` — a key-level
copy that shares the `RoomState` objects with the store.  In the heap model:
the store maps `"r1"` to the object at handle `0`; the returned mapping
contains the same handle `0`; a caller mutating that object's `code`
attribute in place changes what the store's own `get_room` subsequently
reports, so the returned structure is not independent of internal state. -/
theorem c8_list_rooms_shares_room_objects :
    (((list_rooms_heap ⟨[("r1", 0)]⟩).find?
        (fun p => p.1 == "r1")).map Prod.snd) = some 0
    ∧ get_room_heap ⟨[⟨"r1", "original", "python", 0⟩]⟩ ⟨[("r1", 0)]⟩ "r1" =
        some ⟨"r1", "original", "python", 0⟩
    ∧ get_room_heap
        (set_room_code ⟨[⟨"r1", "original", "python", 0⟩]⟩ 0 "attack")
        ⟨[("r1", 0)]⟩ "r1" =
        some ⟨"r1", "attack", "python", 0⟩ := by decide

end CollabApp
